import Mathlib

/-!
Shallow embedding of the ZeroWaste single-page app (src/src/App.tsx).

The app is a single React component. Its state is the hooks at the top of
ZeroWasteApp: currentUser, searchTerm, selectedCategory, activeTab, the
newFoodItem draft form, and the foodItems catalog. The event handlers
(handleLogin, handleLogout, handleInputChange, handleCategoryChange,
handleSubmitFoodItem) and the derived filteredItems value are embedded as
pure functions over an explicit AppState record. Clock readings (Date.now
and new Date) are passed in as explicit Nat parameters (epoch milliseconds).
The localStorage persistence layer is embedded at the string level together
with a model of the platform JSON.stringify / JSON.parse pair.
-/

/-- The closed set of food categories (type FoodCategory in App.tsx). -/
inductive FoodCategory
  | fruits | vegetables | dairy | bakery | meals | other
deriving DecidableEq, Repr

/-- The three roles selectable on the landing screen. The TS type UserRole is
nullable, so the embedding uses Option Role where the source uses UserRole. -/
inductive Role
  | donor | receiver | ngo
deriving DecidableEq, Repr

/-- Runtime value of the postedAt field. The TS type annotation says Date, but
at runtime the field is a Date object only for items created in the current
session (modelled by its epoch-milliseconds reading); for items reloaded from
localStorage JSON.parse leaves it as the plain serialized string. -/
inductive PostedAt
  | date (t : Nat)
  | str (s : String)
deriving DecidableEq, Repr

/-- interface FoodItem in App.tsx. -/
structure FoodItem where
  id : String
  title : String
  description : String
  category : FoodCategory
  quantity : String
  expiryDate : String
  location : String
  postedBy : String
  postedAt : PostedAt
deriving DecidableEq, Repr

/-- interface UserProfile in App.tsx. -/
structure UserProfile where
  name : String
  role : Option Role
  description : String
  contact : String
deriving DecidableEq, Repr

/-- The newFoodItem draft-form state (title, description, category, quantity,
expiryDate, location). -/
structure Draft where
  title : String
  description : String
  category : FoodCategory
  quantity : String
  expiryDate : String
  location : String
deriving DecidableEq, Repr

/-- The category filter state: selectedCategory is FoodCategory or the literal
string all in the source. -/
inductive CatSel
  | all
  | cat (c : FoodCategory)
deriving DecidableEq, Repr

/-- The component state: one field per useState hook of ZeroWasteApp. -/
structure AppState where
  currentUser : Option UserProfile
  searchTerm : String
  selectedCategory : CatSel
  activeTab : String
  newFoodItem : Draft
  foodItems : List FoodItem
deriving DecidableEq, Repr

/-- Initial value of the newFoodItem hook; handleSubmitFoodItem resets the
draft to this same literal. -/
def defaultDraft : Draft :=
  { title := "", description := "", category := FoodCategory.fruits,
    quantity := "", expiryDate := "", location := "" }

/-- The fixed two-item seed catalog used when nothing (or an empty string) is
stored under the foodItems key. The two new Date() calls in the literal are
modelled by a single clock reading. -/
def seedItems (now : Nat) : List FoodItem :=
  [ { id := "1",
      title := "Fresh Apples",
      description := "Box of organic apples, slightly bruised but perfectly good",
      category := FoodCategory.fruits,
      quantity := "5 kg",
      expiryDate := "2023-12-15",
      location := "Downtown Market",
      postedBy := "Local Grocer",
      postedAt := PostedAt.date now },
    { id := "2",
      title := "Day-old Bread",
      description := "Assorted bakery items from yesterday",
      category := FoodCategory.bakery,
      quantity := "10 loaves",
      expiryDate := "2023-12-10",
      location := "Main Street Bakery",
      postedBy := "Community Kitchen",
      postedAt := PostedAt.date now } ]

/-- Character-list test: pat is an initial segment of the second list. -/
def leadsWith : List Char → List Char → Bool
  | [], _ => true
  | _ :: _, [] => false
  | a :: as, b :: bs => decide (a = b) && leadsWith as bs

/-- Contiguous-occurrence test over character lists. -/
def occursIn (pat : List Char) : List Char → Bool
  | [] => leadsWith pat []
  | c :: t => leadsWith pat (c :: t) || occursIn pat t

/-- JS String.prototype.includes on the embedding of strings. -/
def strIncludes (s pat : String) : Bool :=
  occursIn pat.data s.data

/-- JS String.prototype.toLowerCase, modelled characterwise with Char.toLower. -/
def strToLower (s : String) : String :=
  String.mk (s.data.map Char.toLower)

/-- handleLogin: constructs the canned profile from the selected role only and
makes it the current user. -/
def handleLogin (role : Option Role) (s : AppState) : AppState :=
  { s with currentUser := some (
      { name := if role = some Role.donor then "Food Donor"
                else if role = some Role.receiver then "Food Receiver"
                else "Local NGO",
        role := role,
        description := if role = some Role.donor then "Restaurant owner donating excess food"
                       else if role = some Role.receiver then "Community center feeding those in need"
                       else "Non-profit organization redistributing food",
        contact := "contact@example.com" : UserProfile }) }

/-- handleLogout: discards the current user and nothing else. -/
def handleLogout (s : AppState) : AppState :=
  { s with currentUser := none }

/-- The expression currentUser?.name || Anonymous: the JS || operator falls
through both when currentUser is null and when the name is the empty string
(a falsy string). -/
def postedByOf : Option UserProfile → String
  | some u => if u.name = "" then "Anonymous" else u.name
  | none => "Anonymous"

/-- The const newItem built by handleSubmitFoodItem: id from Date.now,
the spread of the draft fields, postedBy from the current user, postedAt from
new Date(). The two clock reads are modelled by one reading now. -/
def builtItem (now : Nat) (s : AppState) : FoodItem :=
  { id := toString now,
    title := s.newFoodItem.title,
    description := s.newFoodItem.description,
    category := s.newFoodItem.category,
    quantity := s.newFoodItem.quantity,
    expiryDate := s.newFoodItem.expiryDate,
    location := s.newFoodItem.location,
    postedBy := postedByOf s.currentUser,
    postedAt := PostedAt.date now }

/-- handleSubmitFoodItem: appends the new item, resets the draft, and switches
the active tab to listings. No field of the draft is validated. -/
def handleSubmitFoodItem (now : Nat) (s : AppState) : AppState :=
  { s with foodItems := s.foodItems ++ [builtItem now s],
           newFoodItem := defaultDraft,
           activeTab := "listings" }

/-- The five text inputs whose onChange goes through handleInputChange
(the category select has its own handler). -/
inductive DraftField
  | title | description | quantity | expiryDate | location
deriving DecidableEq, Repr

/-- handleInputChange: update the draft field named by the input element. -/
def setField (d : Draft) (f : DraftField) (v : String) : Draft :=
  match f with
  | DraftField.title => { d with title := v }
  | DraftField.description => { d with description := v }
  | DraftField.quantity => { d with quantity := v }
  | DraftField.expiryDate => { d with expiryDate := v }
  | DraftField.location => { d with location := v }

/-- The derived filteredItems value: an item passes when the lowercased search
term occurs in the lowercased title or description, and the selected category
is all or equals the item category. -/
def filteredItems (s : AppState) : List FoodItem :=
  s.foodItems.filter (fun item =>
    (strIncludes (strToLower item.title) (strToLower s.searchTerm)
      || strIncludes (strToLower item.description) (strToLower s.searchTerm))
    && (decide (s.selectedCategory = CatSel.all)
      || decide (CatSel.cat item.category = s.selectedCategory)))

/-- The user-triggerable state transitions of the component. -/
inductive AppAction
  | login (r : Role)
  | logout
  | setSearchTerm (t : String)
  | setSelectedCategory (c : CatSel)
  | setActiveTab (t : String)
  | inputChange (f : DraftField) (v : String)
  | categoryChange (c : FoodCategory)
  | submit (now : Nat)

/-- Apply one user action: each constructor invokes the handler the
corresponding UI control is wired to. -/
def applyAction : AppAction → AppState → AppState
  | AppAction.login r, s => handleLogin (some r) s
  | AppAction.logout, s => handleLogout s
  | AppAction.setSearchTerm t, s => { s with searchTerm := t }
  | AppAction.setSelectedCategory c, s => { s with selectedCategory := c }
  | AppAction.setActiveTab t, s => { s with activeTab := t }
  | AppAction.inputChange f v, s => { s with newFoodItem := setField s.newFoodItem f v }
  | AppAction.categoryChange c, s => { s with newFoodItem := { s.newFoodItem with category := c } }
  | AppAction.submit now, s => handleSubmitFoodItem now s

/-- The component state right after mount, given the catalog produced by the
foodItems useState initializer. -/
def initialState (items : List FoodItem) : AppState :=
  { currentUser := none,
    searchTerm := "",
    selectedCategory := CatSel.all,
    activeTab := "listings",
    newFoodItem := defaultDraft,
    foodItems := items }

/-- The opening brace character, kept out of literals as Char.ofNat 123. -/
def lbrace : Char := Char.ofNat 123

/-- The closing brace character, kept out of literals as Char.ofNat 125. -/
def rbrace : Char := Char.ofNat 125

/-- Lowercase hex digit for a value below 16. -/
def hexDigitChar (n : Nat) : Char :=
  if n < 10 then Char.ofNat (48 + n) else Char.ofNat (87 + n)

/-- Numeric value of a hex digit character (either case), none otherwise. -/
def hexVal (c : Char) : Option Nat :=
  if 48 ≤ c.toNat ∧ c.toNat ≤ 57 then some (c.toNat - 48)
  else if 97 ≤ c.toNat ∧ c.toNat ≤ 102 then some (c.toNat - 87)
  else if 65 ≤ c.toNat ∧ c.toNat ≤ 70 then some (c.toNat - 55)
  else none

/-- Modelled from the spec: the platform JSON.stringify string quoting
(ECMA-262 QuoteJSONString): the quotation mark, the reverse solidus and the
named control characters get two-character escapes, the remaining control
characters below U+0020 get a four-hex-digit escape, and every other character
is emitted as itself. -/
def escChar (c : Char) : List Char :=
  if c = '"' then ['\\', '"']
  else if c = '\\' then ['\\', '\\']
  else if c = '\x08' then ['\\', 'b']
  else if c = '\x0c' then ['\\', 'f']
  else if c = '\n' then ['\\', 'n']
  else if c = '\r' then ['\\', 'r']
  else if c = '\t' then ['\\', 't']
  else if c.toNat < 32 then
    ['\\', 'u', '0', '0', hexDigitChar (c.toNat / 16), hexDigitChar (c.toNat % 16)]
  else [c]

/-- Escape every character of a string body in sequence. -/
def escList : List Char → List Char
  | [] => []
  | c :: t => escChar c ++ escList t

/-- Modelled from the spec: the string-body production of the platform
JSON.parse. The input starts right after the opening quotation mark; the
result is the decoded body and the input left after the closing quotation
mark. Unescaped control characters and bad escapes are rejected. A
four-hex-digit escape is decoded through Char.ofNat (so the code points the
embedding of strings cannot hold fall back to its default). -/
def parseStrBody : List Char → Option (List Char × List Char)
  | [] => none
  | c :: rest =>
    if c = '"' then some ([], rest)
    else if c = '\\' then
      match rest with
      | [] => none
      | e :: rest2 =>
        if e = '"' then (parseStrBody rest2).map (fun p => ('"' :: p.1, p.2))
        else if e = '\\' then (parseStrBody rest2).map (fun p => ('\\' :: p.1, p.2))
        else if e = '/' then (parseStrBody rest2).map (fun p => ('/' :: p.1, p.2))
        else if e = 'b' then (parseStrBody rest2).map (fun p => ('\x08' :: p.1, p.2))
        else if e = 'f' then (parseStrBody rest2).map (fun p => ('\x0c' :: p.1, p.2))
        else if e = 'n' then (parseStrBody rest2).map (fun p => ('\n' :: p.1, p.2))
        else if e = 'r' then (parseStrBody rest2).map (fun p => ('\r' :: p.1, p.2))
        else if e = 't' then (parseStrBody rest2).map (fun p => ('\t' :: p.1, p.2))
        else if e = 'u' then
          match rest2 with
          | h1 :: h2 :: h3 :: h4 :: rest3 =>
            match hexVal h1, hexVal h2, hexVal h3, hexVal h4 with
            | some a, some b, some c2, some d =>
              (parseStrBody rest3).map
                (fun p => (Char.ofNat (((a * 16 + b) * 16 + c2) * 16 + d) :: p.1, p.2))
            | _, _, _, _ => none
          | _ => none
        else none
    else if c.toNat < 32 then none
    else (parseStrBody rest).map (fun p => (c :: p.1, p.2))

/-- The JSON values the catalog serialization ranges over: strings, arrays and
objects with ordered fields. (The stored catalog is an array of objects whose
fields are all strings, so the other JSON scalars never occur in it.) -/
inductive Json
  | str (s : String)
  | arr (elems : List Json)
  | obj (fields : List (String × Json))

mutual

/-- Modelled from the spec: the platform JSON.stringify rendering of a value:
no whitespace, object fields in insertion order, strings quoted with escChar. -/
def encV : Json → List Char
  | Json.str s => '"' :: (escList s.data ++ ['"'])
  | Json.arr xs => '[' :: (encElems xs ++ [']'])
  | Json.obj fs => lbrace :: (encFields fs ++ [rbrace])

/-- Comma-separated renderings of the array elements. -/
def encElems : List Json → List Char
  | [] => []
  | [x] => encV x
  | x :: y :: t => encV x ++ (',' :: encElems (y :: t))

/-- Comma-separated key-colon-value renderings of the object fields. -/
def encFields : List (String × Json) → List Char
  | [] => []
  | [(k, v)] => '"' :: (escList k.data ++ ('"' :: ':' :: encV v))
  | (k, v) :: y :: t =>
    ('"' :: (escList k.data ++ ('"' :: ':' :: encV v))) ++ (',' :: encFields (y :: t))

end

/-- JSON.stringify on the values of the Json fragment. -/
def jsonEncode (j : Json) : String :=
  String.mk (encV j)

mutual

/-- Modelled from the spec: the platform JSON.parse, restricted to the
grammar fragment JSON.stringify emits for the catalog (strings, arrays,
objects; canonical spacing). Fuel-indexed recursive descent: parse one value
and return it with the remaining input, or none on a syntax error (the model
of JSON.parse throwing). -/
def parseVal : Nat → List Char → Option (Json × List Char)
  | 0, _ => none
  | f + 1, l =>
    match l with
    | [] => none
    | c :: rest =>
      if c = '"' then
        (parseStrBody rest).map (fun p => (Json.str (String.mk p.1), p.2))
      else if c = '[' then
        match rest with
        | [] => none
        | d :: r =>
          if d = ']' then some (Json.arr [], r)
          else (parseElems f (d :: r)).map (fun p => (Json.arr p.1, p.2))
      else if c = lbrace then
        match rest with
        | [] => none
        | d :: r =>
          if d = rbrace then some (Json.obj [], r)
          else (parseFields f (d :: r)).map (fun p => (Json.obj p.1, p.2))
      else none

/-- One or more comma-separated values followed by the closing bracket. -/
def parseElems : Nat → List Char → Option (List Json × List Char)
  | 0, _ => none
  | f + 1, l =>
    match parseVal f l with
    | none => none
    | some (j, r) =>
      match r with
      | [] => none
      | d :: r2 =>
        if d = ',' then
          match parseElems f r2 with
          | none => none
          | some (js, r3) => some (j :: js, r3)
        else if d = ']' then some ([j], r2)
        else none

/-- One or more comma-separated quoted-key colon value fields followed by the
closing brace. -/
def parseFields : Nat → List Char → Option (List (String × Json) × List Char)
  | 0, _ => none
  | f + 1, l =>
    match l with
    | [] => none
    | c :: rest =>
      if c = '"' then
        match parseStrBody rest with
        | none => none
        | some (k, r) =>
          match r with
          | [] => none
          | d :: r2 =>
            if d = ':' then
              match parseVal f r2 with
              | none => none
              | some (v, r3) =>
                match r3 with
                | [] => none
                | d2 :: r4 =>
                  if d2 = ',' then
                    match parseFields f r4 with
                    | none => none
                    | some (fs, r5) => some ((String.mk k, v) :: fs, r5)
                  else if d2 = rbrace then some ([(String.mk k, v)], r4)
                  else none
            else none
      else none

end

/-- JSON.parse on a whole string: parse one value with ample fuel and require
the input to be fully consumed; none models a thrown SyntaxError. -/
def jsonParse (s : String) : Option Json :=
  match parseVal (s.data.length + 1) s.data with
  | some (j, []) => some j
  | _ => none

/-- Separator-prefixed rendering of the elements after the first one. -/
def sepElems : List Json → List Char
  | [] => []
  | x :: t => ',' :: encElems (x :: t)

/-- Separator-prefixed rendering of the fields after the first one. -/
def sepFields : List (String × Json) → List Char
  | [] => []
  | x :: t => ',' :: encFields (x :: t)

/-- String value of a FoodCategory, as it appears in the serialized catalog. -/
def catToStr : FoodCategory → String
  | FoodCategory.fruits => "fruits"
  | FoodCategory.vegetables => "vegetables"
  | FoodCategory.dairy => "dairy"
  | FoodCategory.bakery => "bakery"
  | FoodCategory.meals => "meals"
  | FoodCategory.other => "other"

/-- Read a FoodCategory back from its string value. -/
def catOfStr (s : String) : Option FoodCategory :=
  if s = "fruits" then some FoodCategory.fruits
  else if s = "vegetables" then some FoodCategory.vegetables
  else if s = "dairy" then some FoodCategory.dairy
  else if s = "bakery" then some FoodCategory.bakery
  else if s = "meals" then some FoodCategory.meals
  else if s = "other" then some FoodCategory.other
  else none

/-- Modelled from the spec: Date.prototype.toJSON, the serialization
JSON.stringify applies to the postedAt Date, yields an ISO-8601 date string;
the embedding models it abstractly as the decimal rendering of the
epoch-milliseconds reading. -/
def dateToJsonString (t : Nat) : String :=
  toString t

/-- The string JSON.stringify puts in the postedAt position: a Date serializes
through its toJSON, while an already-reloaded plain string serializes as
itself. -/
def postedAtToJson : PostedAt → String
  | PostedAt.date t => dateToJsonString t
  | PostedAt.str s => s

/-- The JSON object JSON.stringify produces for one FoodItem: the nine fields
in the property order of the object literal in handleSubmitFoodItem (the seed
literals use the same order). -/
def itemToJson (it : FoodItem) : Json :=
  Json.obj
    [ ("id", Json.str it.id),
      ("title", Json.str it.title),
      ("description", Json.str it.description),
      ("category", Json.str (catToStr it.category)),
      ("quantity", Json.str it.quantity),
      ("expiryDate", Json.str it.expiryDate),
      ("location", Json.str it.location),
      ("postedBy", Json.str it.postedBy),
      ("postedAt", Json.str (postedAtToJson it.postedAt)) ]

/-- The JSON array JSON.stringify produces for the whole catalog (the value
written to localStorage by the persistence useEffect). -/
def catalogToJson (items : List FoodItem) : Json :=
  Json.arr (items.map itemToJson)

/-- Property access on a parsed JSON object: the value under a key, required
to be a string. -/
def getStr (fs : List (String × Json)) (k : String) : Option String :=
  match List.lookup k fs with
  | some (Json.str s) => some s
  | _ => none

/-- Reading one parsed element back as a FoodItem, modelling the unchecked
TS cast of the JSON.parse result to FoodItem array: each declared property is
read off the object; postedAt stays the plain string JSON.parse produced. -/
def decodeItem (j : Json) : Option FoodItem :=
  match j with
  | Json.obj fs =>
    match getStr fs ("id"), getStr fs ("title"), getStr fs ("description"),
          getStr fs ("category"), getStr fs ("quantity"), getStr fs ("expiryDate"),
          getStr fs ("location"), getStr fs ("postedBy"), getStr fs ("postedAt") with
    | some i, some ti, some de, some ca, some qu, some ex, some lo, some pb, some pa =>
      match catOfStr ca with
      | some c =>
        some { id := i, title := ti, description := de, category := c,
               quantity := qu, expiryDate := ex, location := lo,
               postedBy := pb, postedAt := PostedAt.str pa }
      | none => none
    | _, _, _, _, _, _, _, _, _ => none
  | _ => none

/-- Read a list of parsed elements back as FoodItems. -/
def decodeList : List Json → Option (List FoodItem)
  | [] => some []
  | x :: t =>
    match decodeItem x with
    | none => none
    | some it =>
      match decodeList t with
      | none => none
      | some its => some (it :: its)

/-- Read a parsed JSON value back as the FoodItem array the code casts it to. -/
def decodeItems (j : Json) : Option (List FoodItem) :=
  match j with
  | Json.arr xs => decodeList xs
  | _ => none

/-- A catalog item as it looks after a JSON round trip: every field unchanged
except postedAt, which is now the plain serialized string. -/
def storedItem (it : FoodItem) : FoodItem :=
  { it with postedAt := PostedAt.str (postedAtToJson it.postedAt) }

/-- Outcome of the foodItems useState initializer. -/
inductive InitResult
  | ok (items : List FoodItem)
  | okUntyped (j : Json)
  | thrown

/-- The foodItems useState initializer: read localStorage under the foodItems
key; the JS conditional savedItems ? JSON.parse(savedItems) : seed falls back
to the seed catalog when the stored value is null or the (falsy) empty string;
otherwise JSON.parse runs with no surrounding try/catch, so a syntax error
propagates (thrown), and a successful parse is cast to FoodItem array
unchecked (okUntyped when the value does not fit that shape). -/
def initFoodItems (now : Nat) (stored : Option String) : InitResult :=
  match stored with
  | none => InitResult.ok (seedItems now)
  | some s =>
    if s = "" then InitResult.ok (seedItems now)
    else
      match jsonParse s with
      | none => InitResult.thrown
      | some j =>
        match decodeItems j with
        | some items => InitResult.ok items
        | none => InitResult.okUntyped j

/-- The component states reachable in a session: mount with a successfully
initialized catalog, then any sequence of user actions. -/
inductive Reachable : AppState → Prop
  | init (now : Nat) (stored : Option String) (items : List FoodItem)
      (h : initFoodItems now stored = InitResult.ok items) :
      Reachable (initialState items)
  | step {s : AppState} (a : AppAction) (hs : Reachable s) :
      Reachable (applyAction a s)

/-- A concrete session used to witness C2: mount on the seed catalog, log in
as a donor, open the post tab, and fill every draft field. -/
def c2State : AppState :=
  applyAction (AppAction.inputChange DraftField.location ("Hall"))
    (applyAction (AppAction.inputChange DraftField.expiryDate ("2024-01-01"))
      (applyAction (AppAction.inputChange DraftField.quantity ("2 kg"))
        (applyAction (AppAction.categoryChange FoodCategory.meals)
          (applyAction (AppAction.inputChange DraftField.description ("Cooked rice"))
            (applyAction (AppAction.inputChange DraftField.title ("Rice"))
              (applyAction (AppAction.setActiveTab ("post"))
                (applyAction (AppAction.login Role.donor)
                  (initialState (seedItems 0)))))))))

/-- A concrete four-action session used as the C4 counterexample: mount on
the seed catalog, log in as a donor, open the post tab, submit twice at the
same Date.now reading. -/
def c4State : AppState :=
  applyAction (AppAction.submit 7) (applyAction (AppAction.submit 7)
    (applyAction (AppAction.setActiveTab ("post")) (applyAction (AppAction.login Role.donor)
      (initialState (seedItems 0)))))

/-- Helper: the empty pattern occurs in every character list. -/
theorem occursIn_nil (l : List Char) : occursIn [] l = true := by
  cases l <;> simp [occursIn, leadsWith]

/-- Claim C3: for every catalog, search term and category selection, the
derived listing contains exactly the catalog items (in catalog order) that
satisfy both the search constraint (the lowercased term occurs in the
lowercased title or description) and the category constraint (the selection is
all, or equals the item category). -/
theorem list_filter_spec (s : AppState) :
    List.Sublist (filteredItems s) s.foodItems ∧
    ∀ it : FoodItem, it ∈ filteredItems s ↔
      it ∈ s.foodItems ∧
      (strIncludes (strToLower it.title) (strToLower s.searchTerm) = true ∨
        strIncludes (strToLower it.description) (strToLower s.searchTerm) = true) ∧
      (s.selectedCategory = CatSel.all ∨ CatSel.cat it.category = s.selectedCategory) := by
  refine ⟨List.filter_sublist _, fun it => ?_⟩
  simp [filteredItems, List.mem_filter, Bool.or_eq_true, Bool.and_eq_true,
    decide_eq_true_iff]

/-- Claim C6: logout followed by login yields a current user that is a pure
function of the selected role: two runs from arbitrary prior session states
produce identical profiles. -/
theorem login_profile_pure (s1 s2 : AppState) (role : Option Role) :
    (handleLogin role (handleLogout s1)).currentUser
      = (handleLogin role (handleLogout s2)).currentUser := rfl

/-- Claim C7: with the empty search term and the all category selection, the
derived listing is the full catalog in its original order. -/
theorem list_empty_all_identity (s : AppState)
    (h1 : s.searchTerm = "") (h2 : s.selectedCategory = CatSel.all) :
    filteredItems s = s.foodItems := by
  unfold filteredItems
  rw [h1, h2]
  refine List.filter_eq_self.mpr fun a ha => ?_
  simp [strIncludes, strToLower, occursIn_nil]

/-- Witness for C7 at the freshly mounted state over the seed catalog. -/
theorem list_empty_all_identity_witness :
    filteredItems (initialState (seedItems 0)) = seedItems 0 :=
  list_empty_all_identity (initialState (seedItems 0)) rfl rfl

/-- Claim C8: filtering is conjunctive: searching bread in the fruits category
over the two seed items returns the empty listing, since the bread item fails
the category constraint and the fruits item fails the text constraint. -/
theorem list_conjunctive_seed (t : Nat) :
    filteredItems
      { currentUser := none, searchTerm := "bread",
        selectedCategory := CatSel.cat FoodCategory.fruits,
        activeTab := "listings", newFoodItem := defaultDraft,
        foodItems := seedItems t } = [] := rfl

/-- Claim C9: logout changes only the current user: catalog, search term,
category selection, draft and active tab are untouched, and a following login
of any role still sees the previous active tab. -/
theorem logout_frame (s : AppState) :
    (handleLogout s).foodItems = s.foodItems ∧
    (handleLogout s).searchTerm = s.searchTerm ∧
    (handleLogout s).selectedCategory = s.selectedCategory ∧
    (handleLogout s).activeTab = s.activeTab ∧
    (handleLogout s).newFoodItem = s.newFoodItem ∧
    ∀ role : Option Role, (handleLogin role (handleLogout s)).activeTab = s.activeTab :=
  ⟨rfl, rfl, rfl, rfl, rfl, fun _ => rfl⟩

/-- Helper: session invariant: every profile a reachable state can hold was
built by handleLogin, so its name is never the empty string. -/
theorem reachable_user_name (s : AppState) (h : Reachable s) :
    ∀ u, s.currentUser = some u → u.name ≠ "" := by
  induction h with
  | init now stored items hinit =>
    intro u hu
    simp [initialState] at hu
  | step a hs ih =>
    cases a with
    | login r =>
      intro u hu
      cases r <;> simp [applyAction, handleLogin] at hu <;> subst hu <;> decide
    | logout =>
      intro u hu
      simp [applyAction, handleLogout] at hu
    | setSearchTerm t =>
      intro u hu
      exact ih u hu
    | setSelectedCategory c =>
      intro u hu
      exact ih u hu
    | setActiveTab t =>
      intro u hu
      exact ih u hu
    | inputChange f v =>
      intro u hu
      exact ih u hu
    | categoryChange c =>
      intro u hu
      exact ih u hu
    | submit now =>
      intro u hu
      exact ih u hu

/-- Claim C2: when every required draft field is non-empty and the state is a
reachable session state, submitting appends exactly one item at the end of the catalog, stamps
its id and postedAt from the submission clock reading, sets postedBy to the
active user name (or Anonymous with no user), resets the draft to its
defaults, and switches the active tab to the listings view. -/
theorem addItem_spec (s : AppState) (now : Nat) (hr : Reachable s)
    (ht : s.newFoodItem.title ≠ "") (hd : s.newFoodItem.description ≠ "")
    (hq : s.newFoodItem.quantity ≠ "") (he : s.newFoodItem.expiryDate ≠ "")
    (hl : s.newFoodItem.location ≠ "") :
    (handleSubmitFoodItem now s).foodItems.length = s.foodItems.length + 1 ∧
    (handleSubmitFoodItem now s).foodItems = s.foodItems ++ [builtItem now s] ∧
    (builtItem now s).postedBy =
      (match s.currentUser with
        | some u => u.name
        | none => "Anonymous") ∧
    (builtItem now s).id = toString now ∧
    (builtItem now s).postedAt = PostedAt.date now ∧
    (handleSubmitFoodItem now s).newFoodItem = defaultDraft ∧
    (handleSubmitFoodItem now s).activeTab = "listings" := by
  have hu := reachable_user_name s hr
  refine ⟨by simp [handleSubmitFoodItem], rfl, ?_, rfl, rfl, rfl, rfl⟩
  cases hcu : s.currentUser with
  | none => simp [builtItem, postedByOf, hcu]
  | some u => simp [builtItem, postedByOf, hcu, hu u hcu]

/-- Witness for C2 at a concrete logged-in state and clock reading. -/
theorem addItem_spec_witness :
    (handleSubmitFoodItem 7 c2State).foodItems.length = c2State.foodItems.length + 1 ∧
    (handleSubmitFoodItem 7 c2State).foodItems = c2State.foodItems ++ [builtItem 7 c2State] ∧
    (builtItem 7 c2State).postedBy =
      (match c2State.currentUser with
        | some u => u.name
        | none => "Anonymous") ∧
    (builtItem 7 c2State).id = toString 7 ∧
    (builtItem 7 c2State).postedAt = PostedAt.date 7 ∧
    (handleSubmitFoodItem 7 c2State).newFoodItem = defaultDraft ∧
    (handleSubmitFoodItem 7 c2State).activeTab = "listings" :=
  addItem_spec c2State 7
    (Reachable.step _ (Reachable.step _ (Reachable.step _ (Reachable.step _
      (Reachable.step _ (Reachable.step _ (Reachable.step _ (Reachable.step _
        (Reachable.init 0 none (seedItems 0) rfl)))))))))
    (by decide) (by decide) (by decide) (by decide) (by decide)

/-- Claim C10: the submit handler performs no field validation: even with every
text field of the draft empty, it unconditionally appends an item built from
that draft. -/
theorem addItem_no_validation (s : AppState) (now : Nat)
    (ht : s.newFoodItem.title = "") (hd : s.newFoodItem.description = "")
    (hq : s.newFoodItem.quantity = "") (he : s.newFoodItem.expiryDate = "")
    (hl : s.newFoodItem.location = "") :
    (handleSubmitFoodItem now s).foodItems =
      s.foodItems ++
        [{ id := toString now, title := "", description := "",
           category := s.newFoodItem.category, quantity := "", expiryDate := "",
           location := "", postedBy := postedByOf s.currentUser,
           postedAt := PostedAt.date now }] := by
  simp [handleSubmitFoodItem, builtItem, ht, hd, hq, he, hl]

/-- Witness for C10: submitting the untouched (all-empty) default draft right
after mount still appends an item. -/
theorem addItem_no_validation_witness :
    (handleSubmitFoodItem 3 (initialState (seedItems 0))).foodItems =
      (initialState (seedItems 0)).foodItems ++
        [{ id := toString 3, title := "", description := "",
           category := (initialState (seedItems 0)).newFoodItem.category,
           quantity := "", expiryDate := "", location := "",
           postedBy := postedByOf (initialState (seedItems 0)).currentUser,
           postedAt := PostedAt.date 3 }] :=
  addItem_no_validation (initialState (seedItems 0)) 3 rfl rfl rfl rfl rfl

/-- Helper: hex-digit rendering and reading invert below 16. -/
theorem hexVal_hexDigitChar : ∀ n : Nat, n < 16 → hexVal (hexDigitChar n) = some n := by
  decide

/-- Helper: hexVal reads the digit zero. -/
theorem hexVal_zero : hexVal '0' = some 0 := by decide

/-- Helper: reading a four-hex-digit escape whose first two digits are zero. -/
theorem parseStrBody_u (d1 d0 : Char) (a b : Nat) (Y : List Char)
    (h1 : hexVal d1 = some a) (h0 : hexVal d0 = some b) :
    parseStrBody ('\\' :: 'u' :: '0' :: '0' :: d1 :: d0 :: Y) =
      (parseStrBody Y).map (fun p => (Char.ofNat (a * 16 + b) :: p.1, p.2)) := by
  rw [parseStrBody.eq_def]
  simp [hexVal_zero, h1, h0]

/-- Helper: the string-body parser inverts the stringify escaping: reading an
escaped body followed by a closing quotation mark returns the original body
and the input after the quotation mark. -/
theorem parseStrBody_esc (cs rest : List Char) :
    parseStrBody (escList cs ++ ('"' :: rest)) = some (cs, rest) := by
  induction cs with
  | nil =>
    rw [(by simp [escList] : escList [] ++ ('"' :: rest) = '"' :: rest), parseStrBody.eq_def]
    simp
  | cons c t ih =>
    by_cases h1 : c = '"'
    · subst h1
      have hsplit : escList ('"' :: t) ++ ('"' :: rest) =
          '\\' :: '"' :: (escList t ++ ('"' :: rest)) := by
        simp [escList, escChar]
      rw [hsplit, parseStrBody.eq_def]
      simp [ih]
    by_cases h2 : c = '\\'
    · subst h2
      have hsplit : escList ('\\' :: t) ++ ('"' :: rest) =
          '\\' :: '\\' :: (escList t ++ ('"' :: rest)) := by
        simp [escList, escChar]
      rw [hsplit, parseStrBody.eq_def]
      simp [ih]
    by_cases h3 : c = '\x08'
    · subst h3
      have hsplit : escList ('\x08' :: t) ++ ('"' :: rest) =
          '\\' :: 'b' :: (escList t ++ ('"' :: rest)) := by
        simp [escList, escChar]
      rw [hsplit, parseStrBody.eq_def]
      simp [ih]
    by_cases h4 : c = '\x0c'
    · subst h4
      have hsplit : escList ('\x0c' :: t) ++ ('"' :: rest) =
          '\\' :: 'f' :: (escList t ++ ('"' :: rest)) := by
        simp [escList, escChar]
      rw [hsplit, parseStrBody.eq_def]
      simp [ih]
    by_cases h5 : c = '\n'
    · subst h5
      have hsplit : escList ('\n' :: t) ++ ('"' :: rest) =
          '\\' :: 'n' :: (escList t ++ ('"' :: rest)) := by
        simp [escList, escChar]
      rw [hsplit, parseStrBody.eq_def]
      simp [ih]
    by_cases h6 : c = '\r'
    · subst h6
      have hsplit : escList ('\r' :: t) ++ ('"' :: rest) =
          '\\' :: 'r' :: (escList t ++ ('"' :: rest)) := by
        simp [escList, escChar]
      rw [hsplit, parseStrBody.eq_def]
      simp [ih]
    by_cases h7 : c = '\t'
    · subst h7
      have hsplit : escList ('\t' :: t) ++ ('"' :: rest) =
          '\\' :: 't' :: (escList t ++ ('"' :: rest)) := by
        simp [escList, escChar]
      rw [hsplit, parseStrBody.eq_def]
      simp [ih]
    by_cases h8 : c.toNat < 32
    · have hsplit : escList (c :: t) ++ ('"' :: rest) =
          '\\' :: 'u' :: '0' :: '0' :: hexDigitChar (c.toNat / 16) ::
            hexDigitChar (c.toNat % 16) :: (escList t ++ ('"' :: rest)) := by
        simp [escList, escChar, h1, h2, h3, h4, h5, h6, h7, h8]
      rw [hsplit,
        parseStrBody_u _ _ _ _ _ (hexVal_hexDigitChar _ (by omega))
          (hexVal_hexDigitChar _ (by omega)),
        ih]
      rw [(by omega : c.toNat / 16 * 16 + c.toNat % 16 = c.toNat), Char.ofNat_toNat]
      rfl
    · have hsplit : escList (c :: t) ++ ('"' :: rest) =
          c :: (escList t ++ ('"' :: rest)) := by
        simp [escList, escChar, h1, h2, h3, h4, h5, h6, h7, h8]
      rw [hsplit, parseStrBody.eq_def]
      simp [h1, h2, h8, ih]

/-- Helper: every encoded value starts with a quotation mark, an opening
bracket or an opening brace. -/
theorem encV_cons (j : Json) :
    ∃ c t, encV j = c :: t ∧ (c = '"' ∨ c = '[' ∨ c = lbrace) := by
  cases j with
  | str s => exact ⟨'"', escList s.data ++ ['"'], by simp [encV], Or.inl rfl⟩
  | arr xs => exact ⟨'[', encElems xs ++ [']'], by simp [encV], Or.inr (Or.inl rfl)⟩
  | obj fs => exact ⟨lbrace, encFields fs ++ [rbrace], by simp [encV], Or.inr (Or.inr rfl)⟩

/-- Helper: encoded values are nonempty. -/
theorem encV_len_pos (j : Json) : 1 ≤ (encV j).length := by
  obtain ⟨c, t, h, _⟩ := encV_cons j
  simp [h]

/-- Helper: rendering of a nonempty element list, with the separator spelled
by the shape of the tail. -/
theorem encElems_cons (x : Json) (t : List Json) :
    encElems (x :: t) = encV x ++ sepElems t := by
  cases t <;> simp [encElems, sepElems]

/-- Helper: rendering of a nonempty field list, with the separator spelled by
the shape of the tail. -/
theorem encFields_cons (k : String) (v : Json) (t : List (String × Json)) :
    encFields ((k, v) :: t) =
      '"' :: (escList k.data ++ ('"' :: ':' :: (encV v ++ sepFields t))) := by
  cases t <;> simp [encFields, sepFields]

/-- Helper: one parser step on a quoted string value. -/
theorem parseVal_str (f : Nat) (Y : List Char) :
    parseVal (f + 1) ('"' :: Y) =
      (parseStrBody Y).map (fun p => (Json.str (String.mk p.1), p.2)) := by
  rw [parseVal.eq_def]
  simp

/-- Helper: one parser step on an array opener with a nonempty continuation. -/
theorem parseVal_arr (f : Nat) (d : Char) (r : List Char) :
    parseVal (f + 1) ('[' :: d :: r) =
      (if d = ']' then some (Json.arr [], r)
       else (parseElems f (d :: r)).map (fun p => (Json.arr p.1, p.2))) := by
  rw [parseVal.eq_def]
  simp

/-- Helper: one parser step on an object opener with a nonempty continuation. -/
theorem parseVal_obj (f : Nat) (d : Char) (r : List Char) :
    parseVal (f + 1) (lbrace :: d :: r) =
      (if d = rbrace then some (Json.obj [], r)
       else (parseFields f (d :: r)).map (fun p => (Json.obj p.1, p.2))) := by
  have hq : ¬ (lbrace = '"') := by decide
  have hb : ¬ (lbrace = '[') := by decide
  rw [parseVal.eq_def]
  simp [hq, hb]

/-- Helper: unfolding of the element-list parser at positive fuel. -/
theorem parseElems_succ (f : Nat) (l : List Char) :
    parseElems (f + 1) l =
      (match parseVal f l with
        | none => none
        | some (j, r) =>
          match r with
          | [] => none
          | d :: r2 =>
            if d = ',' then
              match parseElems f r2 with
              | none => none
              | some (js, r3) => some (j :: js, r3)
            else if d = ']' then some ([j], r2)
            else none) := by
  rw [parseElems.eq_def]

/-- Helper: unfolding of the field-list parser at positive fuel on a nonempty
input. -/
theorem parseFields_succ (f : Nat) (c : Char) (rest : List Char) :
    parseFields (f + 1) (c :: rest) =
      (if c = '"' then
        match parseStrBody rest with
        | none => none
        | some (k, r) =>
          match r with
          | [] => none
          | d :: r2 =>
            if d = ':' then
              match parseVal f r2 with
              | none => none
              | some (v, r3) =>
                match r3 with
                | [] => none
                | d2 :: r4 =>
                  if d2 = ',' then
                    match parseFields f r4 with
                    | none => none
                    | some (fs, r5) => some ((String.mk k, v) :: fs, r5)
                  else if d2 = rbrace then some ([(String.mk k, v)], r4)
                  else none
            else none
      else none) := by
  rw [parseFields.eq_def]

/-- Helper: with enough fuel, the parser inverts the renderer: a rendered
value (or nonempty element or field list with its closing delimiter) followed
by arbitrary input parses back to itself, leaving exactly that input. -/
theorem parse_enc (f : Nat) :
    (∀ j rest, (encV j).length ≤ f → parseVal f (encV j ++ rest) = some (j, rest)) ∧
    (∀ xs rest, xs ≠ ([] : List Json) → (encElems xs).length + 1 ≤ f →
      parseElems f (encElems xs ++ (']' :: rest)) = some (xs, rest)) ∧
    (∀ fs rest, fs ≠ ([] : List (String × Json)) → (encFields fs).length + 1 ≤ f →
      parseFields f (encFields fs ++ (rbrace :: rest)) = some (fs, rest)) := by
  induction f with
  | zero =>
    refine ⟨fun j rest h => absurd h ?_, fun xs rest hne h => absurd h (by omega),
      fun fs rest hne h => absurd h (by omega)⟩
    have := encV_len_pos j
    omega
  | succ f ih =>
    obtain ⟨ihV, ihE, ihF⟩ := ih
    refine ⟨?_, ?_, ?_⟩
    · intro j rest hlen
      cases j with
      | str s =>
        have hsh : encV (Json.str s) ++ rest = '"' :: (escList s.data ++ ('"' :: rest)) := by
          simp [encV]
        rw [hsh, parseVal_str, parseStrBody_esc]
        rfl
      | arr xs =>
        have hsh : encV (Json.arr xs) ++ rest = '[' :: (encElems xs ++ (']' :: rest)) := by
          simp [encV]
        rw [hsh]
        cases xs with
        | nil =>
          have h0 : encElems ([] : List Json) ++ (']' :: rest) = ']' :: rest := by
            simp [encElems]
          rw [h0, parseVal_arr]
          simp
        | cons x t =>
          obtain ⟨c0, t0, hx, hc0⟩ := encV_cons x
          have hhd : encElems (x :: t) ++ (']' :: rest) =
              c0 :: (t0 ++ (sepElems t ++ (']' :: rest))) := by
            rw [encElems_cons, hx]
            simp
          have hc0ne : ¬ (c0 = ']') := by
            rcases hc0 with h | h | h <;> subst h <;> decide
          rw [hhd, parseVal_arr, if_neg hc0ne, ← hhd]
          have hlen2 : (encElems (x :: t)).length + 1 ≤ f := by
            simp [encV] at hlen
            omega
          rw [ihE (x :: t) rest (by simp) hlen2]
          rfl
      | obj fs =>
        have hsh : encV (Json.obj fs) ++ rest = lbrace :: (encFields fs ++ (rbrace :: rest)) := by
          simp [encV]
        rw [hsh]
        cases fs with
        | nil =>
          have h0 : encFields ([] : List (String × Json)) ++ (rbrace :: rest) = rbrace :: rest := by
            simp [encFields]
          rw [h0, parseVal_obj]
          simp
        | cons kv t =>
          obtain ⟨k, v⟩ := kv
          have hhd : encFields ((k, v) :: t) ++ (rbrace :: rest) =
              '"' :: ((escList k.data ++ ('"' :: ':' :: (encV v ++ sepFields t))) ++ (rbrace :: rest)) := by
            rw [encFields_cons]
            simp
          have hqne : ¬ (('"' : Char) = rbrace) := by decide
          rw [hhd, parseVal_obj, if_neg hqne, ← hhd]
          have hlen2 : (encFields ((k, v) :: t)).length + 1 ≤ f := by
            simp [encV] at hlen
            omega
          rw [ihF ((k, v) :: t) rest (by simp) hlen2]
          rfl
    · intro xs rest hne hlen
      cases xs with
      | nil => exact absurd rfl hne
      | cons x t =>
        cases t with
        | nil =>
          have hsh : encElems [x] ++ (']' :: rest) = encV x ++ (']' :: rest) := by
            simp [encElems]
          have hlx : (encV x).length ≤ f := by
            simp [encElems] at hlen
            omega
          rw [hsh]
          simp [parseElems_succ, ihV x (']' :: rest) hlx]
        | cons y t2 =>
          have hsh : encElems (x :: y :: t2) ++ (']' :: rest) =
              encV x ++ (',' :: (encElems (y :: t2) ++ (']' :: rest))) := by
            rw [encElems_cons]
            simp [sepElems]
          have hlx : (encV x).length ≤ f := by
            rw [encElems_cons] at hlen
            simp [sepElems] at hlen
            omega
          have hly : (encElems (y :: t2)).length + 1 ≤ f := by
            rw [encElems_cons] at hlen
            simp [sepElems] at hlen
            omega
          rw [hsh]
          simp [parseElems_succ, ihV x (',' :: (encElems (y :: t2) ++ (']' :: rest))) hlx,
            ihE (y :: t2) rest (by simp) hly]
    · intro fs rest hne hlen
      cases fs with
      | nil => exact absurd rfl hne
      | cons kv t =>
        obtain ⟨k, v⟩ := kv
        cases t with
        | nil =>
          have hsh : encFields [(k, v)] ++ (rbrace :: rest) =
              '"' :: (escList k.data ++ ('"' :: (':' :: (encV v ++ (rbrace :: rest))))) := by
            rw [encFields_cons]
            simp [sepFields]
          have hlv : (encV v).length ≤ f := by
            rw [encFields_cons] at hlen
            simp [sepFields] at hlen
            omega
          have hbne : ¬ (rbrace = ',') := by decide
          rw [hsh, parseFields_succ]
          simp [parseStrBody_esc k.data (':' :: (encV v ++ (rbrace :: rest))),
            ihV v (rbrace :: rest) hlv, hbne]
        | cons kv2 t2 =>
          have hsh : encFields ((k, v) :: kv2 :: t2) ++ (rbrace :: rest) =
              '"' :: (escList k.data ++ ('"' :: (':' :: (encV v ++
                (',' :: (encFields (kv2 :: t2) ++ (rbrace :: rest))))))) := by
            rw [encFields_cons]
            simp [sepFields]
          have hlv : (encV v).length ≤ f := by
            rw [encFields_cons] at hlen
            simp [sepFields] at hlen
            omega
          have hlt : (encFields (kv2 :: t2)).length + 1 ≤ f := by
            rw [encFields_cons] at hlen
            simp [sepFields] at hlen
            omega
          rw [hsh, parseFields_succ]
          simp [parseStrBody_esc k.data (':' :: (encV v ++ (',' :: (encFields (kv2 :: t2) ++ (rbrace :: rest))))),
            ihV v (',' :: (encFields (kv2 :: t2) ++ (rbrace :: rest))) hlv,
            ihF (kv2 :: t2) rest (by simp) hlt]

/-- Helper: parsing inverts encoding on whole strings. -/
theorem jsonParse_encode (j : Json) : jsonParse (jsonEncode j) = some j := by
  have h := (parse_enc ((encV j).length + 1)).1 j [] (by omega)
  rw [List.append_nil] at h
  simp [jsonParse, jsonEncode, h]

/-- Helper: reading back a serialized item yields its stored form. -/
theorem decodeItem_itemToJson (it : FoodItem) :
    decodeItem (itemToJson it) = some (storedItem it) := by
  cases it with
  | mk i ti de c qu ex lo pb pa => cases c <;> rfl

/-- Helper: reading back a serialized item list yields the stored forms. -/
theorem decodeList_map (items : List FoodItem) :
    decodeList (items.map itemToJson) = some (items.map storedItem) := by
  induction items with
  | nil => rfl
  | cons it t ih => simp [decodeList, decodeItem_itemToJson, ih]

/-- Helper: the open-brace string alone is not valid JSON. -/
theorem jsonParse_open_brace : jsonParse ("\x7b") = none := by
  have hq : ¬ (('\x7b' : Char) = '"') := by decide
  have hbr : ¬ (('\x7b' : Char) = '[') := by decide
  have hl : ('\x7b' : Char) = lbrace := by decide
  have hv : parseVal 2 ['\x7b'] = none := by
    rw [parseVal.eq_def]
    simp [hq, hbr, hl]
  show (match parseVal 2 ['\x7b'] with
        | some (j, []) => some j
        | _ => none) = none
  rw [hv]

/-- Claim C5: round trip through the store: writing the serialized catalog and
reloading it as at startup reproduces the catalog field for field, except that
each postedAt comes back as its serialized string form. -/
theorem catalog_roundtrip (items : List FoodItem) (now : Nat) :
    initFoodItems now (some (jsonEncode (catalogToJson items))) =
      InitResult.ok (items.map storedItem) := by
  have hne : jsonEncode (catalogToJson items) ≠ "" := by
    obtain ⟨c, t, h, _⟩ := encV_cons (catalogToJson items)
    simp [jsonEncode, h, String.ext_iff]
  have hp : jsonParse (jsonEncode (catalogToJson items)) = some (catalogToJson items) :=
    jsonParse_encode (catalogToJson items)
  simp only [catalogToJson] at hne hp
  simp [initFoodItems, hne, hp, decodeItems, catalogToJson, decodeList_map]

/-- Claim C1 (amended): an absent stored value, or a present empty string
(both falsy in the JS conditional), silently falls back to the seed catalog;
but a present non-empty stored value that does not parse as JSON makes the
initializer throw (JSON.parse runs with no try/catch), rather than falling
back to the seed. -/
theorem init_fallback_or_throw :
    (∀ now, initFoodItems now none = InitResult.ok (seedItems now)) ∧
    (∀ now, initFoodItems now (some ("")) = InitResult.ok (seedItems now)) ∧
    (∀ now s, s ≠ "" → jsonParse s = none →
      initFoodItems now (some s) = InitResult.thrown) := by
  refine ⟨fun now => rfl, fun now => rfl, fun now s hne hp => ?_⟩
  simp [initFoodItems, hne, hp]

/-- Witness for C1 at concrete stored values. -/
theorem init_fallback_or_throw_witness :
    initFoodItems 5 none = InitResult.ok (seedItems 5) ∧
    initFoodItems 5 (some ("")) = InitResult.ok (seedItems 5) ∧
    initFoodItems 5 (some ("\x7b")) = InitResult.thrown :=
  ⟨init_fallback_or_throw.1 5, init_fallback_or_throw.2.1 5,
    init_fallback_or_throw.2.2 5 ("\x7b") (by decide) jsonParse_open_brace⟩

/-- Counterexample to C1 as stated: with the unparseable stored value
consisting of a lone open brace, the initializer throws instead of falling
back to the seed catalog, so the parse failure is not silent. -/
theorem init_unparseable_throws_cex :
    initFoodItems 0 (some ("\x7b")) = InitResult.thrown ∧
    initFoodItems 0 (some ("\x7b")) ≠ InitResult.ok (seedItems 0) := by
  have hne : ("\x7b" : String) ≠ "" := by decide
  have e1 : initFoodItems 0 (some ("\x7b")) = InitResult.thrown := by
    simp [initFoodItems, hne, jsonParse_open_brace]
  exact ⟨e1, fun h => InitResult.noConfusion (e1.symm.trans h)⟩

/-- Counterexample to C4 as stated: ids are stamped from Date.now, so a
session that logs in, opens the post tab, and submits twice within the same
millisecond reaches a catalog with two items sharing one id. -/
theorem ids_unique_cex :
    Reachable c4State ∧ ¬ (c4State.foodItems.map (fun it => it.id)).Nodup := by
  constructor
  · exact Reachable.step _ (Reachable.step _ (Reachable.step _ (Reachable.step _
      (Reachable.init 0 none (seedItems 0) rfl))))
  · decide

/-- Claim C4 (amended): adding an item preserves pairwise-distinct ids
whenever the submission clock reading stamps a string different from every id
already in the catalog; uniqueness is not unconditional, since two submissions
with the same Date.now reading stamp the same id. -/
theorem addItem_preserves_unique_ids (s : AppState) (now : Nat)
    (h1 : (s.foodItems.map (fun it => it.id)).Nodup)
    (h2 : toString now ∉ s.foodItems.map (fun it => it.id)) :
    ((handleSubmitFoodItem now s).foodItems.map (fun it => it.id)).Nodup := by
  have hmap : (handleSubmitFoodItem now s).foodItems.map (fun it => it.id) =
      s.foodItems.map (fun it => it.id) ++ [toString now] := by
    simp [handleSubmitFoodItem, builtItem]
  rw [hmap, List.nodup_append]
  refine ⟨h1, by simp, fun a ha hb => ?_⟩
  simp at hb
  subst hb
  exact h2 ha

/-- Witness for C4 (amended) at the freshly seeded state. -/
theorem addItem_preserves_unique_ids_witness :
    (((handleSubmitFoodItem 7 (initialState (seedItems 0))).foodItems.map
      (fun it => it.id))).Nodup :=
  addItem_preserves_unique_ids (initialState (seedItems 0)) 7 (by decide) (by decide)
